import Mathlib

/-!
Verification of the Cloudreve Desktop sync client against its design
specification.  Definitions are shallow embeddings of the repository's
TypeScript sources (`ui/src/utils/siteValidation.ts`, `ui/src/utils/fetch.ts`,
`ui/src/pages/settings/DrivesSection.tsx`), of its SQL migrations
(`0003_create_upload_sessions/up.sql`, `0004_create_drive_props/up.sql`), and —
where the Rust engine code is absent from the repository snapshot — of the
behaviour the specification and `ARCHITECTURE.md` describe (such definitions
carry a `Modelled from the spec:` doc comment).
-/

namespace SiteValidation

/-- The result of the JavaScript `Number(...)` coercion on a string.  A dot
cannot occur in the strings we coerce (they are components of a
`split(".")`), so the decimal-point forms of a numeric literal never arise;
the remaining forms are the empty string (→ 0), `Infinity` with optional
sign, radix-prefixed integers (`0x`, `0b`, `0o`), and decimal integers with
an optional exponent.  A finite value is modelled exactly as the scaled
integer `m · 10 ^ e` (JavaScript rounds to binary64; the ordering facts
proved below are insensitive to that). -/
inductive JSNum where
  | nan
  | negInf
  | posInf
  | num (m : Int) (e : Int)
deriving DecidableEq, Repr

/-- Numeric value of a digit list in the given base, `none` when a character
is out of range or the list is empty. -/
def radixVal? (base : Nat) (cs : List Char) : Option Nat :=
  match cs with
  | [] => none
  | _ =>
    cs.foldl
      (fun acc c =>
        match acc, digitVal? base c with
        | some a, some d => some (base * a + d)
        | _, _ => none)
      (some 0)
where
  /-- Value of one digit character in the given base. -/
  digitVal? (base : Nat) (c : Char) : Option Nat :=
    let v :=
      if '0' ≤ c ∧ c ≤ '9' then some (c.toNat - 48)
      else if 'a' ≤ c ∧ c ≤ 'f' then some (c.toNat - 87)
      else if 'A' ≤ c ∧ c ≤ 'F' then some (c.toNat - 55)
      else none
    match v with
    | some d => if d < base then some d else none
    | none => none

/-- Decimal digit-list value (base 10, total on digit characters). -/
def digitsToNat (cs : List Char) : Nat :=
  cs.foldl (fun a c => 10 * a + (c.toNat - 48)) 0

/-- Value of the scaled integer `m · 10 ^ e`, compared against another by
clearing the smaller exponent:  `m₁·10^e₁ < m₂·10^e₂  ↔
m₁·10^(e₁-k) < m₂·10^(e₂-k)` with `k = min e₁ e₂`. -/
def scaledLt (m₁ e₁ m₂ e₂ : Int) : Bool :=
  decide (m₁ * (10 : Int) ^ (e₁ - min e₁ e₂).toNat <
          m₂ * (10 : Int) ^ (e₂ - min e₁ e₂).toNat)

/-- JavaScript `StrWhiteSpace` characters recognised by `Number(...)`. -/
def isJsWs (c : Char) : Bool :=
  c = ' ' ∨ c = '\t' ∨ c = '\n' ∨ c = '\r' ∨ c = '\x0b' ∨ c = '\x0c'

/-- Trim JavaScript whitespace from both ends. -/
def trimWs (cs : List Char) : List Char :=
  ((cs.dropWhile isJsWs).reverse.dropWhile isJsWs).reverse

/-- Decimal integer literal with optional sign and optional exponent part,
as accepted by `Number(...)` (the fraction forms contain a dot and cannot
occur here). -/
def decimalNum (t : List Char) : JSNum :=
  let sgnRest : Int × List Char :=
    match t with
    | '+' :: r => (1, r)
    | '-' :: r => (-1, r)
    | r => (1, r)
  let ds := sgnRest.2.takeWhile Char.isDigit
  let rest2 := sgnRest.2.dropWhile Char.isDigit
  if ds = [] then .nan
  else
    let m : Int := sgnRest.1 * (digitsToNat ds : Int)
    match rest2 with
    | [] => .num m 0
    | e :: r2 =>
      if e = 'e' ∨ e = 'E' then
        let esgnRest : Int × List Char :=
          match r2 with
          | '+' :: r => (1, r)
          | '-' :: r => (-1, r)
          | r => (1, r)
        let eds := esgnRest.2.takeWhile Char.isDigit
        let r4 := esgnRest.2.dropWhile Char.isDigit
        if eds = [] ∨ r4 ≠ [] then .nan
        else .num m (esgnRest.1 * (digitsToNat eds : Int))
      else .nan

/-- JavaScript `Number(s)` for a dot-free string `s`. -/
def jsNumber (cs : List Char) : JSNum :=
  let t := trimWs cs
  if t = [] then .num 0 0
  else if t = "Infinity".toList then .posInf
  else if t = "+Infinity".toList then .posInf
  else if t = "-Infinity".toList then .negInf
  else
    match t with
    | '0' :: c :: rest =>
      if c = 'x' ∨ c = 'X' then
        match radixVal? 16 rest with
        | some n => .num n 0
        | none => .nan
      else if c = 'b' ∨ c = 'B' then
        match radixVal? 2 rest with
        | some n => .num n 0
        | none => .nan
      else if c = 'o' ∨ c = 'O' then
        match radixVal? 8 rest with
        | some n => .num n 0
        | none => .nan
      else decimalNum t
    | _ => decimalNum t

/-- JavaScript `<` on numbers (false whenever an operand is NaN). -/
def JSNum.ltb : JSNum → JSNum → Bool
  | .nan, _ => false
  | _, .nan => false
  | .negInf, .negInf => false
  | .negInf, _ => true
  | _, .negInf => false
  | .posInf, _ => false
  | .num _ _, .posInf => true
  | .num m₁ e₁, .num m₂ e₂ => scaledLt m₁ e₁ m₂ e₂

/-- JavaScript `x || 0`: NaN and ±0 are falsy, so the result is the plain
number 0 for them and `x` otherwise (±0 and 0 coincide here). -/
def JSNum.orZero : JSNum → JSNum
  | .nan => .num 0 0
  | x => x

/-- JavaScript `s.split(".")` over the character list (keeps empty components, as the
JavaScript `String.prototype.split` does). -/
def splitDots : List Char → List (List Char)
  | [] => [[]]
  | c :: rest =>
    if c = '.' then [] :: splitDots rest
    else
      match splitDots rest with
      | [] => [[c]]
      | g :: gs => (c :: g) :: gs

/-- Align the two component lists index-wise up to the longer length, the
JavaScript loop's `i < Math.max(partsA.length, partsB.length)`.  A missing
index reads as `undefined`, which `|| 0` sends to `0` exactly as it sends
`NaN` to `0`, so the padding uses `.nan`. -/
def padZip : List JSNum → List JSNum → List (JSNum × JSNum)
  | [], ys => ys.map (fun y => (.nan, y))
  | x :: xs, [] => (x, .nan) :: padZip xs []
  | x :: xs, y :: ys => (x, y) :: padZip xs ys

/-- The body of the `compareSemver` loop
(`ui/src/utils/siteValidation.ts:30-35`): at each index the two components
(defaulted with `|| 0`) are compared; the first strict inequality decides
the result. -/
def cmpLoop : List (JSNum × JSNum) → Int
  | [] => 0
  | p :: rest =>
    if (JSNum.orZero p.1).ltb (JSNum.orZero p.2) then -1
    else if (JSNum.orZero p.2).ltb (JSNum.orZero p.1) then 1
    else cmpLoop rest

/-- Index-wise comparison of two component lists. -/
def cmpParts (xs ys : List JSNum) : Int :=
  cmpLoop (padZip xs ys)

/-- The function `compareSemver` (`ui/src/utils/siteValidation.ts:26-37`): split both
strings on `"."`, coerce each component with `Number`, compare index-wise
with missing components read as `0`. -/
def compareSemver (a b : String) : Int :=
  cmpParts ((splitDots a.toList).map jsNumber) ((splitDots b.toList).map jsNumber)

theorem JSNum.ltb_irrefl (x : JSNum) : x.ltb x = false := by
  cases x <;> simp [JSNum.ltb, scaledLt]

theorem JSNum.ltb_asymm {x y : JSNum} (h : x.ltb y = true) : y.ltb x = false := by
  cases x <;> cases y <;>
    simp_all only [JSNum.ltb, scaledLt, decide_eq_true_eq, decide_eq_false_iff_not,
      Bool.false_eq_true, not_lt]
  exact le_of_lt (by rwa [min_comm])

theorem cmpLoop_mem (l : List (JSNum × JSNum)) :
    cmpLoop l = -1 ∨ cmpLoop l = 0 ∨ cmpLoop l = 1 := by
  induction l with
  | nil => simp [cmpLoop]
  | cons p rest ih =>
    rw [cmpLoop]
    split_ifs <;> simp [ih]

theorem padZip_self (l : List JSNum) : padZip l l = l.map (fun x => (x, x)) := by
  induction l with
  | nil => rfl
  | cons x xs ih => simp [padZip, ih]

theorem cmpLoop_diag (l : List JSNum) : cmpLoop (l.map (fun x => (x, x))) = 0 := by
  induction l with
  | nil => rfl
  | cons x xs ih =>
    rw [List.map_cons, cmpLoop]
    simp [JSNum.ltb_irrefl, ih]

theorem padZip_nil_right (l : List JSNum) :
    padZip l [] = l.map (fun x => (x, JSNum.nan)) := by
  induction l with
  | nil => rfl
  | cons x xs ih => simp [padZip, ih]

theorem padZip_swap (a b : List JSNum) :
    padZip b a = (padZip a b).map (fun p => (p.2, p.1)) := by
  induction a generalizing b with
  | nil =>
    have h : padZip ([] : List JSNum) b = b.map (fun y => (JSNum.nan, y)) := rfl
    rw [padZip_nil_right, h, List.map_map]
    rfl
  | cons x xs ih =>
    cases b with
    | nil =>
      have h : padZip ([] : List JSNum) (x :: xs) =
          (x :: xs).map (fun y => (JSNum.nan, y)) := rfl
      rw [h, padZip_nil_right, List.map_map]
      rfl
    | cons y ys =>
      have h₁ : padZip (y :: ys) (x :: xs) = (y, x) :: padZip ys xs := rfl
      have h₂ : padZip (x :: xs) (y :: ys) = (x, y) :: padZip xs ys := rfl
      rw [h₁, h₂, List.map_cons, ih ys]

theorem cmpLoop_swap (l : List (JSNum × JSNum)) :
    cmpLoop (l.map (fun p => (p.2, p.1))) = - cmpLoop l := by
  induction l with
  | nil => rfl
  | cons p rest ih =>
    obtain ⟨a, b⟩ := p
    rw [List.map_cons]
    show cmpLoop ((b, a) :: List.map _ rest) = -cmpLoop ((a, b) :: rest)
    rw [cmpLoop, cmpLoop]
    dsimp only
    by_cases hab : (JSNum.orZero a).ltb (JSNum.orZero b) = true
    · rw [hab, JSNum.ltb_asymm hab]
      simp
    · rw [Bool.not_eq_true] at hab
      rw [hab]
      by_cases hba : (JSNum.orZero b).ltb (JSNum.orZero a) = true
      · rw [hba]
        simp
      · rw [Bool.not_eq_true] at hba
        rw [hba]
        simpa using ih

/-- C9: `compareSemver` always returns a value in `{-1, 0, 1}`; it is zero on
equal arguments; swapping the arguments negates the result; and missing
components are read as `0`, so `compareSemver "4.12" "4.12.0" = 0`. -/
theorem compareSemver_props :
    (∀ a b : String, compareSemver a b = -1 ∨ compareSemver a b = 0 ∨ compareSemver a b = 1)
    ∧ (∀ a : String, compareSemver a a = 0)
    ∧ (∀ a b : String, compareSemver a b = - compareSemver b a)
    ∧ compareSemver "4.12" "4.12.0" = 0 := by
  refine ⟨fun a b => cmpLoop_mem _, fun a => ?_, fun a b => ?_, by decide⟩
  · rw [compareSemver, cmpParts, padZip_self, cmpLoop_diag]
  · rw [compareSemver, compareSemver, cmpParts, cmpParts, padZip_swap, cmpLoop_swap]

/-- The constant `MIN_VERSION` (`ui/src/utils/siteValidation.ts:3`). -/
def MIN_VERSION : String := "4.12.0"

/-- The error categories of `ValidationErrorType`
(`ui/src/utils/siteValidation.ts:11-15`). -/
inductive ValidationErrorType where
  | httpError
  | apiError
  | versionTooLow
  | connectionFailed
deriving DecidableEq, Repr

/-- The `ValidationError` shape (`ui/src/utils/siteValidation.ts:17-20`): an error tag
plus string parameters. -/
structure ValidationError where
  type : ValidationErrorType
  params : List (String × String)
deriving DecidableEq, Repr

/-- The `PingResponse` payload (`ui/src/utils/siteValidation.ts:5-9`). -/
structure PingResponse where
  code : Int
  data : String
  msg : String
deriving DecidableEq, Repr

/-- The observable part of the HTTP `Response` consumed by
`validateSiteVersion`: the `ok` flag, the status code, and the parsed JSON
body (the embedding is at the granularity where `response.json()` has
produced a `PingResponse`). -/
structure HttpResponse where
  ok : Bool
  status : Nat
  body : PingResponse
deriving DecidableEq, Repr

/-- Outcome of the `fetch(url)` call inside `validateSiteVersion`: either the
request (or URL construction) threw, or it produced a response. -/
inductive FetchOutcome where
  | failure (message : String)
  | success (response : HttpResponse)
deriving DecidableEq, Repr

/-- The `replace` call on the reported version with the regex anchored at
the end of the string: remove one trailing `-pro` suffix. -/
def stripProSuffix (s : String) : String :=
  let cs := s.toList
  if "-pro".toList.isSuffixOf cs then String.mk (cs.take (cs.length - 4)) else s

/-- The function `validateSiteVersion` (`ui/src/utils/siteValidation.ts:44-81`) as a
function of the ping outcome: a thrown fetch gives `connectionFailed`; a
non-ok response gives `httpError`; a payload with nonzero `code` gives
`apiError`; a stripped version below `MIN_VERSION` gives `versionTooLow`;
otherwise the stripped version is returned. -/
def validateSiteVersion (outcome : FetchOutcome) : Except ValidationError String :=
  match outcome with
  | .failure message => .error ⟨.connectionFailed, [("message", message)]⟩
  | .success response =>
    if !response.ok then
      .error ⟨.httpError, [("status", toString response.status)]⟩
    else
      let data := response.body
      if data.code ≠ 0 then
        .error ⟨.apiError, [("message", if data.msg = "" then "Unknown error" else data.msg)]⟩
      else
        let version := stripProSuffix data.data
        if compareSemver version MIN_VERSION < 0 then
          .error ⟨.versionTooLow,
            [("version", version), ("minVersion", MIN_VERSION)]⟩
        else
          .ok version

/-- The error tag of a failed validation, `none` on success. -/
def errorTypeOf (r : Except ValidationError String) : Option ValidationErrorType :=
  match r with
  | .error e => some e.type
  | .ok _ => none

/-- C8: `validateSiteVersion` resolves with the stripped version string
exactly when the ping succeeded, the response was ok, the payload code was
0, and the stripped version is at least `MIN_VERSION`; otherwise it fails
with `connectionFailed`, `httpError`, `apiError` or `versionTooLow` for the
first failing check, in that order. -/
theorem validateSiteVersion_spec (o : FetchOutcome) :
    (∀ v, validateSiteVersion o = .ok v ↔
        ∃ r, o = .success r ∧ r.ok = true ∧ r.body.code = 0
          ∧ 0 ≤ compareSemver (stripProSuffix r.body.data) MIN_VERSION
          ∧ v = stripProSuffix r.body.data)
    ∧ (∀ m, o = .failure m →
        errorTypeOf (validateSiteVersion o) = some .connectionFailed)
    ∧ (∀ r, o = .success r → r.ok = false →
        errorTypeOf (validateSiteVersion o) = some .httpError)
    ∧ (∀ r, o = .success r → r.ok = true → r.body.code ≠ 0 →
        errorTypeOf (validateSiteVersion o) = some .apiError)
    ∧ (∀ r, o = .success r → r.ok = true → r.body.code = 0 →
        compareSemver (stripProSuffix r.body.data) MIN_VERSION < 0 →
        errorTypeOf (validateSiteVersion o) = some .versionTooLow) := by
  refine ⟨fun v => ?_, fun m hm => ?_, fun r hr hok => ?_, fun r hr hok hc => ?_,
    fun r hr hok hc hv => ?_⟩
  · constructor
    · intro h
      match o with
      | .failure m => simp [validateSiteVersion] at h
      | .success r =>
        refine ⟨r, rfl, ?_⟩
        rw [validateSiteVersion] at h
        by_cases hok : r.ok = true
        · rw [hok] at h
          simp only [Bool.not_true, Bool.false_eq_true, if_false] at h
          by_cases hc : r.body.code = 0
          · rw [if_neg (by simpa using hc)] at h
            by_cases hv : compareSemver (stripProSuffix r.body.data) MIN_VERSION < 0
            · rw [if_pos hv] at h
              exact absurd h (by simp)
            · rw [if_neg hv] at h
              exact ⟨hok, hc, not_lt.mp hv, (Except.ok.injEq _ _).mp h.symm⟩
          · rw [if_pos (by simpa using hc)] at h
            exact absurd h (by simp)
        · rw [Bool.not_eq_true] at hok
          rw [hok] at h
          simp at h
    · rintro ⟨r, rfl, hok, hc, hv, rfl⟩
      rw [validateSiteVersion, hok]
      simp only [Bool.not_true, Bool.false_eq_true, if_false]
      rw [if_neg (by simpa using hc), if_neg (not_lt.mpr hv)]
  · subst hm
    rfl
  · subst hr
    rw [validateSiteVersion, hok]
    rfl
  · subst hr
    rw [validateSiteVersion, hok]
    simp only [Bool.not_true, Bool.false_eq_true, if_false]
    rw [if_pos (by simpa using hc)]
    rfl
  · subst hr
    rw [validateSiteVersion, hok]
    simp only [Bool.not_true, Bool.false_eq_true, if_false]
    rw [if_neg (by simpa using hc), if_pos hv]
    rfl

/-- Witness for C8 at a concrete outcome: a successful ping reporting
version `4.13.0-pro` validates and returns `4.13.0`. -/
theorem validateSiteVersion_spec_witness :
    validateSiteVersion (.success ⟨true, 200, ⟨0, "4.13.0-pro", "ok"⟩⟩) = .ok "4.13.0" :=
  ((validateSiteVersion_spec (.success ⟨true, 200, ⟨0, "4.13.0-pro", "ok"⟩⟩)).1
    "4.13.0").mpr ⟨⟨true, 200, ⟨0, "4.13.0-pro", "ok"⟩⟩, rfl, rfl, rfl, by decide, by decide⟩

end SiteValidation

namespace FetchWrapper

/-- Header-name normalisation of the WHATWG `Headers` class: names are
case-insensitive and stored lowercased. -/
def lowerKey (s : String) : String :=
  String.mk (s.toList.map Char.toLower)

/-- The `Headers.append` semantics used by the `Headers` constructor: an existing
name has the new value joined onto it with `", "`, a fresh name is added at
the end under its lowercased form. -/
def headersAppend (h : List (String × String)) (name value : String) :
    List (String × String) :=
  let key := lowerKey name
  if h.any (fun kv => kv.1 = key) then
    h.map (fun kv => if kv.1 = key then (kv.1, kv.2 ++ ", " ++ value) else kv)
  else h ++ [(key, value)]

/-- Construction `new Headers(init)`: fold the init entries through `append`. -/
def mkHeaders (l : List (String × String)) : List (String × String) :=
  l.foldl (fun h kv => headersAppend h kv.1 kv.2) []

/-- Method `Headers.has`, case-insensitive. -/
def headersHas (h : List (String × String)) (name : String) : Bool :=
  h.any (fun kv => kv.1 = lowerKey name)

/-- Method `Headers.set`: overwrite the value under an existing name, otherwise add
the pair at the end. -/
def headersSet (h : List (String × String)) (name value : String) :
    List (String × String) :=
  let key := lowerKey name
  if h.any (fun kv => kv.1 = key) then
    h.map (fun kv => if kv.1 = key then (kv.1, value) else kv)
  else h ++ [(key, value)]

/-- Method `Headers.get`, case-insensitive. -/
def headersGet (h : List (String × String)) (name : String) : Option String :=
  (h.find? (fun kv => kv.1 = lowerKey name)).map Prod.snd

/-- The function `getUserAgent` (`ui/src/utils/fetch.ts:11-18`): the string
`cloudreve-desktop/{version}` (the module-level cache only memoises this
pure value). -/
def getUserAgent (version : String) : String :=
  "cloudreve-desktop/" ++ version

/-- The `RequestInit & ClientOptions` argument of the wrapper.  `headers` is
the caller's header list; the remaining standard `RequestInit` and Tauri
`ClientOptions` fields are carried opaquely. -/
structure RequestInit where
  headers : List (String × String) := []
  method : Option String := none
  body : Option String := none
  mode : Option String := none
  credentials : Option String := none
  redirect : Option String := none
  maxRedirections : Option Nat := none
  connectTimeout : Option Nat := none
  proxy : Option String := none
deriving DecidableEq, Repr

/-- The wrapper `fetch` (`ui/src/utils/fetch.ts:24-39`), returning the init
object handed to the underlying Tauri fetch: the caller's headers are
normalised through `new Headers(...)`, a `User-Agent` header is added only
when absent, and the rest of `init` is spread through unchanged. -/
def fetch (version : String) (init : Option RequestInit) : RequestInit :=
  let userAgent := getUserAgent version
  let headers := mkHeaders (match init with | some i => i.headers | none => [])
  let headers :=
    if headersHas headers "User-Agent" then headers
    else headersSet headers "User-Agent" userAgent
  { init.getD {} with headers := headers }

theorem headersGet_set_of_not_has (h : List (String × String)) (n v : String)
    (hh : headersHas h n = false) :
    headersGet (headersSet h n v) n = some v := by
  rw [headersSet]
  rw [headersHas] at hh
  rw [if_neg (by simp [hh])]
  rw [headersGet]
  induction h with
  | nil => simp
  | cons kv rest ih =>
    rw [List.any_cons, Bool.or_eq_false_iff] at hh
    rw [List.cons_append, List.find?_cons_of_neg _ (by simp [hh.1]), ih hh.2]

theorem headersHas_of_get (h : List (String × String)) (n v : String)
    (hg : headersGet h n = some v) : headersHas h n = true := by
  rw [headersGet] at hg
  rw [headersHas]
  obtain ⟨kv, hfind, _⟩ := Option.map_eq_some'.mp hg
  have hp := List.find?_some (p := fun kv : String × String => decide (kv.1 = lowerKey n)) hfind
  exact List.any_eq_true.mpr ⟨kv, List.mem_of_find?_eq_some hfind, hp⟩

/-- C10: the wrapper adds `User-Agent: cloudreve-desktop/{version}` only when
the caller's headers do not already contain a `User-Agent`; a caller-supplied
`User-Agent` is forwarded unchanged (the header set is not modified at all);
and every other field of `init` reaches the underlying fetch unmodified. -/
theorem fetch_spec (version : String) (init : RequestInit) :
    (headersHas (mkHeaders init.headers) "User-Agent" = false →
        headersGet (fetch version (some init)).headers "User-Agent" =
          some ("cloudreve-desktop/" ++ version))
    ∧ (∀ v, headersGet (mkHeaders init.headers) "User-Agent" = some v →
        (fetch version (some init)).headers = mkHeaders init.headers ∧
          headersGet (fetch version (some init)).headers "User-Agent" = some v)
    ∧ (fetch version (some init)).method = init.method
    ∧ (fetch version (some init)).body = init.body
    ∧ (fetch version (some init)).mode = init.mode
    ∧ (fetch version (some init)).credentials = init.credentials
    ∧ (fetch version (some init)).redirect = init.redirect
    ∧ (fetch version (some init)).maxRedirections = init.maxRedirections
    ∧ (fetch version (some init)).connectTimeout = init.connectTimeout
    ∧ (fetch version (some init)).proxy = init.proxy := by
  refine ⟨fun hh => ?_, fun v hg => ?_, rfl, rfl, rfl, rfl, rfl, rfl, rfl, rfl⟩
  · show headersGet (if headersHas (mkHeaders init.headers) "User-Agent" then _ else _)
        "User-Agent" = _
    rw [if_neg (by simp [hh])]
    exact headersGet_set_of_not_has _ _ _ hh
  · have hh := headersHas_of_get _ _ _ hg
    constructor
    · show (if headersHas (mkHeaders init.headers) "User-Agent" then _ else _) = _
      rw [if_pos hh]
    · show headersGet (if headersHas (mkHeaders init.headers) "User-Agent" then _ else _)
          "User-Agent" = _
      rw [if_pos hh]
      exact hg

/-- Witness for C10 at concrete inputs: with no caller `User-Agent` the
wrapper adds `cloudreve-desktop/1.0.0`; with a caller-supplied `User-Agent`
the headers pass through unchanged. -/
theorem fetch_spec_witness :
    headersGet (fetch "1.0.0" (some { headers := [("X-Test", "1")] })).headers
        "User-Agent" = some "cloudreve-desktop/1.0.0"
    ∧ (fetch "1.0.0" (some { headers := [("User-Agent", "custom")] })).headers =
        mkHeaders [("User-Agent", "custom")] :=
  ⟨(fetch_spec "1.0.0" { headers := [("X-Test", "1")] }).1 (by decide),
   ((fetch_spec "1.0.0" { headers := [("User-Agent", "custom")] }).2.1
      "custom" (by decide)).1⟩

end FetchWrapper

namespace DrivesSection

/-- Lookup in the `Record<string, string>` React state (`syncDirections`),
keys unique, `none` for a missing key (JS `undefined`). -/
def recordGet (m : List (String × String)) (k : String) : Option String :=
  (m.find? (fun kv => kv.1 = k)).map Prod.snd

/-- The spread-update `{ ...prev, [driveId]: v }`: overwrite the value under
an existing key, otherwise add the binding. -/
def recordSet (m : List (String × String)) (k v : String) :
    List (String × String) :=
  if m.any (fun kv => kv.1 = k) then
    m.map (fun kv => if kv.1 = k then (kv.1, v) else kv)
  else m ++ [(k, v)]

/-- Modelled from the spec: the engine's `sync_direction` policy
(spec §3, `DriveConfig`) — the Rust crate holding the enum is not in the
snapshot.  It takes exactly the two values `TwoWay` and `OneWayUpload`. -/
inductive SyncDirection where
  | twoWay
  | oneWayUpload
deriving DecidableEq, Repr

/-- Modelled from the spec: the wire encoding the GUI exchanges with the
`get_sync_direction` / `set_sync_direction` commands
(`DrivesSection.tsx` compares against the strings `"two_way"` and
`"one_way_upload"`). -/
def SyncDirection.toWire : SyncDirection → String
  | .twoWay => "two_way"
  | .oneWayUpload => "one_way_upload"

/-- Outcome of `handleSyncDirectionChange`: the direction string passed to
the `set_sync_direction` command and the `syncDirections` state after the
handler (including the revert in the catch branch). -/
structure HandlerResult where
  invoked : String
  state : List (String × String)
deriving DecidableEq, Repr

/-- The handler `handleSyncDirectionChange` (`DrivesSection.tsx:150-164`):
`newDirection` from the switch position, `previousDirection` from the state
with the JS `|| "two_way"` default, optimistic update, then on command
failure a revert to `previousDirection`. -/
def handleSyncDirectionChange (st : List (String × String)) (driveId : String)
    (checked : Bool) (succeeds : Bool) : HandlerResult :=
  let newDirection := if checked then "one_way_upload" else "two_way"
  let previousDirection :=
    match recordGet st driveId with
    | none => "two_way"
    | some v => if v = "" then "two_way" else v
  let st₁ := recordSet st driveId newDirection
  if succeeds then ⟨newDirection, st₁⟩
  else ⟨newDirection, recordSet st₁ driveId previousDirection⟩

/-- The switch position the UI renders for a drive
(`DrivesSection.tsx:383`): checked iff the stored direction is
`"one_way_upload"`. -/
def displayedOneWay (st : List (String × String)) (driveId : String) : Bool :=
  recordGet st driveId = some "one_way_upload"

theorem recordGet_map_set (m : List (String × String)) (k v : String)
    (hm : m.any (fun kv => kv.1 = k) = true) :
    recordGet (m.map (fun kv => if kv.1 = k then (kv.1, v) else kv)) k = some v := by
  induction m with
  | nil => simp at hm
  | cons kv rest ih =>
    rw [List.map_cons]
    by_cases hk : kv.1 = k
    · rw [if_pos hk]
      rw [recordGet, List.find?_cons_of_pos _ (by simp [hk])]
      rfl
    · rw [if_neg hk]
      rw [List.any_cons] at hm
      have hrest : rest.any (fun kv => kv.1 = k) = true := by
        rcases Bool.or_eq_true_iff.mp hm with h | h
        · exact absurd (by simpa using h) hk
        · exact h
      rw [recordGet, List.find?_cons_of_neg _ (by simp [hk])]
      simpa [recordGet] using ih hrest

theorem recordGet_append (m : List (String × String)) (k v : String)
    (hm : m.any (fun kv => kv.1 = k) = false) :
    recordGet (m ++ [(k, v)]) k = some v := by
  induction m with
  | nil => simp [recordGet]
  | cons kv rest ih =>
    rw [List.any_cons, Bool.or_eq_false_iff] at hm
    rw [List.cons_append, recordGet, List.find?_cons_of_neg _ (by simp [hm.1])]
    simpa [recordGet] using ih hm.2

theorem recordGet_set (m : List (String × String)) (k v : String) :
    recordGet (recordSet m k v) k = some v := by
  rw [recordSet]
  by_cases hm : m.any (fun kv => kv.1 = k) = true
  · rw [if_pos hm]
    exact recordGet_map_set m k v hm
  · rw [Bool.not_eq_true] at hm
    rw [if_neg (by simp [hm])]
    exact recordGet_append m k v hm

/-- C6: the drive's sync direction ranges over exactly `TwoWay` and
`OneWayUpload`; the string the settings handler sends through
`set_sync_direction` is always `"two_way"` or `"one_way_upload"`; and when
the command fails the displayed direction for that drive is back at its
previous value. -/
theorem syncDirection_spec :
    (∀ d : SyncDirection, d = .twoWay ∨ d = .oneWayUpload)
    ∧ (∀ d : SyncDirection, d.toWire = "two_way" ∨ d.toWire = "one_way_upload")
    ∧ (∀ st driveId checked succeeds,
        (handleSyncDirectionChange st driveId checked succeeds).invoked = "two_way" ∨
        (handleSyncDirectionChange st driveId checked succeeds).invoked = "one_way_upload")
    ∧ (∀ st driveId checked,
        displayedOneWay (handleSyncDirectionChange st driveId checked false).state driveId =
          displayedOneWay st driveId) := by
  refine ⟨fun d => by cases d <;> simp, fun d => by cases d <;> simp [SyncDirection.toWire],
    fun st driveId checked succeeds => ?_, fun st driveId checked => ?_⟩
  · rw [handleSyncDirectionChange]
    cases checked <;> cases succeeds <;> simp
  · rw [handleSyncDirectionChange]
    simp only [Bool.false_eq_true, if_false]
    rw [displayedOneWay, recordGet_set]
    rw [displayedOneWay]
    match hg : recordGet st driveId with
    | none => decide
    | some v =>
      show decide (some (if v = "" then "two_way" else v) = some "one_way_upload") =
        decide (some v = some "one_way_upload")
      by_cases hv : v = ""
      · subst hv
        decide
      · rw [if_neg hv]

/-- Witness for C6 (its component facts are universally quantified over
concrete data): a failing toggle on a drive previously set to
`"one_way_upload"` leaves the switch checked. -/
theorem syncDirection_spec_witness :
    displayedOneWay
        (handleSyncDirectionChange [("d1", "one_way_upload")] "d1" false false).state "d1" =
      displayedOneWay [("d1", "one_way_upload")] "d1" :=
  syncDirection_spec.2.2.2 [("d1", "one_way_upload")] "d1" false

end DrivesSection

namespace Schema

/-- SQLite column types used by the two migrations. -/
inductive SqlType where
  | text
  | integer
deriving DecidableEq, Repr

/-- One column of a `CREATE TABLE` statement: name, type, `NOT NULL`,
`PRIMARY KEY`, `AUTOINCREMENT`, `UNIQUE`, and `DEFAULT` clause. -/
structure Column where
  name : String
  ty : SqlType
  notNull : Bool
  primaryKey : Bool := false
  autoIncrement : Bool := false
  unique : Bool := false
  defaultVal : Option String := none
deriving DecidableEq, Repr

/-- One `CREATE INDEX` statement: index name, table, indexed columns. -/
structure TableIndex where
  name : String
  table : String
  columns : List String
deriving DecidableEq, Repr

/-- The `upload_sessions` table
(`crates/cloudreve-sync/migrations/inventory/0003_create_upload_sessions/up.sql:2-20`). -/
def upload_sessions : List Column :=
  [⟨"id", .text, true, true, false, false, none⟩,
   ⟨"task_id", .text, true, false, false, false, none⟩,
   ⟨"drive_id", .text, true, false, false, false, none⟩,
   ⟨"local_path", .text, true, false, false, false, none⟩,
   ⟨"remote_uri", .text, true, false, false, false, none⟩,
   ⟨"file_size", .integer, true, false, false, false, none⟩,
   ⟨"chunk_size", .integer, true, false, false, false, none⟩,
   ⟨"policy_type", .text, true, false, false, false, none⟩,
   ⟨"session_data", .text, true, false, false, false, none⟩,
   ⟨"chunk_progress", .text, true, false, false, false, some "[]"⟩,
   ⟨"encrypt_metadata", .text, false, false, false, false, none⟩,
   ⟨"expires_at", .integer, true, false, false, false, none⟩,
   ⟨"created_at", .integer, true, false, false, false, none⟩,
   ⟨"updated_at", .integer, true, false, false, false, none⟩]

/-- The three indexes on `upload_sessions` (same migration, lines 23-29). -/
def upload_sessions_indexes : List TableIndex :=
  [⟨"idx_upload_sessions_task_id", "upload_sessions", ["task_id"]⟩,
   ⟨"idx_upload_sessions_drive_id", "upload_sessions", ["drive_id"]⟩,
   ⟨"idx_upload_sessions_local_path", "upload_sessions", ["local_path"]⟩]

/-- One entry of the `chunk_progress` JSON array, per the migration's
documented shape `[{"index": 0, "loaded": 1024, "etag": "abc"}]`. -/
structure ChunkProgressEntry where
  index : Nat
  loaded : Nat
  etag : String
deriving DecidableEq, Repr

/-- A row of `upload_sessions` with `chunk_progress` in its documented
structured form; `encrypt_metadata` is the only nullable field. -/
structure UploadSessionRow where
  id : String
  task_id : String
  drive_id : String
  local_path : String
  remote_uri : String
  file_size : Int
  chunk_size : Int
  policy_type : String
  session_data : String
  chunk_progress : List ChunkProgressEntry
  encrypt_metadata : Option String
  expires_at : Int
  created_at : Int
  updated_at : Int
deriving DecidableEq, Repr

/-- C4: the durable upload session record has exactly the fourteen claimed
fields in the claimed roles — `encrypt_metadata` is the only nullable
column (`chunk_progress` instead defaults to the empty list) — and the
table carries exactly the three secondary indexes, on `task_id`, on
`drive_id`, and on `local_path`. -/
theorem upload_sessions_schema :
    upload_sessions.map Column.name =
      ["id", "task_id", "drive_id", "local_path", "remote_uri", "file_size",
       "chunk_size", "policy_type", "session_data", "chunk_progress",
       "encrypt_metadata", "expires_at", "created_at", "updated_at"]
    ∧ (upload_sessions.filter (fun c => !c.notNull)).map Column.name = ["encrypt_metadata"]
    ∧ (upload_sessions.filter (fun c => c.defaultVal = some "[]")).map Column.name =
        ["chunk_progress"]
    ∧ upload_sessions_indexes.map TableIndex.columns = [["task_id"], ["drive_id"], ["local_path"]]
    ∧ upload_sessions_indexes.all (fun i => i.table = "upload_sessions") = true := by
  decide

/-- The `drive_props` table
(`migrations/inventory/0004_create_drive_props/up.sql:3-18`). -/
def drive_props : List Column :=
  [⟨"id", .integer, true, true, true, false, none⟩,
   ⟨"drive_id", .text, true, false, false, true, none⟩,
   ⟨"capacity", .text, false, false, false, false, none⟩,
   ⟨"capacity_updated_at", .integer, false, false, false, false, none⟩,
   ⟨"storage_policies", .text, false, false, false, false, none⟩,
   ⟨"storage_policies_updated_at", .integer, false, false, false, false, none⟩,
   ⟨"user_settings", .text, false, false, false, false, none⟩,
   ⟨"user_settings_updated_at", .integer, false, false, false, false, none⟩,
   ⟨"created_at", .integer, true, false, false, false, none⟩,
   ⟨"updated_at", .integer, true, false, false, false, none⟩]

/-- The index on `drive_props` (same migration, line 21). -/
def drive_props_indexes : List TableIndex :=
  [⟨"idx_drive_props_drive_id", "drive_props", ["drive_id"]⟩]

/-- A row of `drive_props`: each cached property group is nullable and
carries its own nullable last-updated timestamp. -/
structure DrivePropsRow where
  id : Int
  drive_id : String
  capacity : Option String
  capacity_updated_at : Option Int
  storage_policies : Option String
  storage_policies_updated_at : Option Int
  user_settings : Option String
  user_settings_updated_at : Option Int
  created_at : Int
  updated_at : Int
deriving DecidableEq, Repr

/-- The `UNIQUE` constraint on `drive_props.drive_id` as a table
invariant: no two rows share a `drive_id`. -/
def DrivePropsTableWF (t : List DrivePropsRow) : Prop :=
  t.Pairwise (fun r₁ r₂ => r₁.drive_id ≠ r₂.drive_id)

/-- Modelled from the spec: the opportunistic refresh of the cached
`capacity` group (spec §6: each group "with an independent last-updated
timestamp, refreshed opportunistically"); the engine code performing the
refresh is not in the snapshot.  It writes the group's value, the group's
own timestamp and the row's generic `updated_at`. -/
def refreshCapacity (r : DrivePropsRow) (val : String) (now : Int) : DrivePropsRow :=
  { r with capacity := some val, capacity_updated_at := some now, updated_at := now }

/-- Modelled from the spec: opportunistic refresh of the cached
`storage_policies` group; see `refreshCapacity`. -/
def refreshStoragePolicies (r : DrivePropsRow) (val : String) (now : Int) : DrivePropsRow :=
  { r with storage_policies := some val, storage_policies_updated_at := some now,
           updated_at := now }

/-- Modelled from the spec: opportunistic refresh of the cached
`user_settings` group; see `refreshCapacity`. -/
def refreshUserSettings (r : DrivePropsRow) (val : String) (now : Int) : DrivePropsRow :=
  { r with user_settings := some val, user_settings_updated_at := some now,
           updated_at := now }

/-- C7: `drive_props` holds the three cached groups, each with its own
timestamp column, `drive_id` is `UNIQUE` (so a well-formed table has at
most one row per drive), and refreshing one group sets only that group's
value and timestamp, leaving the other groups' values and timestamps
untouched. -/
theorem drive_props_spec :
    (drive_props.map Column.name =
      ["id", "drive_id", "capacity", "capacity_updated_at", "storage_policies",
       "storage_policies_updated_at", "user_settings", "user_settings_updated_at",
       "created_at", "updated_at"]
    ∧ (drive_props.filter (fun c => c.unique)).map Column.name = ["drive_id"])
    ∧ (∀ t : List DrivePropsRow, DrivePropsTableWF t →
        ∀ r₁ ∈ t, ∀ r₂ ∈ t, r₁.drive_id = r₂.drive_id → r₁ = r₂)
    ∧ (∀ r val now,
        (refreshCapacity r val now).capacity_updated_at = some now
        ∧ (refreshCapacity r val now).storage_policies = r.storage_policies
        ∧ (refreshCapacity r val now).storage_policies_updated_at =
            r.storage_policies_updated_at
        ∧ (refreshCapacity r val now).user_settings = r.user_settings
        ∧ (refreshCapacity r val now).user_settings_updated_at = r.user_settings_updated_at)
    ∧ (∀ r val now,
        (refreshStoragePolicies r val now).storage_policies_updated_at = some now
        ∧ (refreshStoragePolicies r val now).capacity = r.capacity
        ∧ (refreshStoragePolicies r val now).capacity_updated_at = r.capacity_updated_at
        ∧ (refreshStoragePolicies r val now).user_settings = r.user_settings
        ∧ (refreshStoragePolicies r val now).user_settings_updated_at =
            r.user_settings_updated_at)
    ∧ (∀ r val now,
        (refreshUserSettings r val now).user_settings_updated_at = some now
        ∧ (refreshUserSettings r val now).capacity = r.capacity
        ∧ (refreshUserSettings r val now).capacity_updated_at = r.capacity_updated_at
        ∧ (refreshUserSettings r val now).storage_policies = r.storage_policies
        ∧ (refreshUserSettings r val now).storage_policies_updated_at =
            r.storage_policies_updated_at) := by
  refine ⟨⟨by decide, by decide⟩, fun t hwf r₁ h₁ r₂ h₂ heq => ?_,
    fun r val now => ⟨rfl, rfl, rfl, rfl, rfl⟩,
    fun r val now => ⟨rfl, rfl, rfl, rfl, rfl⟩,
    fun r val now => ⟨rfl, rfl, rfl, rfl, rfl⟩⟩
  induction t with
  | nil => cases h₁
  | cons hd tl ih =>
    rw [DrivePropsTableWF, List.pairwise_cons] at hwf
    cases h₁ with
    | head =>
      cases h₂ with
      | head => rfl
      | tail _ h₂ => exact absurd heq (hwf.1 r₂ h₂)
    | tail _ h₁ =>
      cases h₂ with
      | head => exact absurd heq.symm (hwf.1 r₁ h₁)
      | tail _ h₂ => exact ih hwf.2 h₁ h₂

/-- A concrete `drive_props` row used by the C7 witness. -/
def demoRow : DrivePropsRow :=
  ⟨1, "drive-1", some "cap", some 10, none, none, none, none, 0, 10⟩

/-- Witness for C7 at a concrete table: the singleton table is well-formed
and its row is the unique row for its drive. -/
theorem drive_props_spec_witness :
    DrivePropsTableWF [demoRow] ∧ demoRow = demoRow :=
  ⟨List.pairwise_singleton _ _,
   drive_props_spec.2.1 [demoRow] (List.pairwise_singleton _ _) demoRow
     (List.mem_singleton.mpr rfl) demoRow (List.mem_singleton.mpr rfl) rfl⟩

end Schema

namespace Conflict

/-- The `file_metadata.conflict_state` column values documented by the
migration (`ALTER TABLE file_metadata ADD COLUMN conflict_state TEXT`):
`NULL` = no conflict, `'pending'` = conflict awaiting user action,
`'override'` = user chose to override the remote version. -/
def isValidConflictState : Option String → Bool
  | none => true
  | some v => v = "pending" ∨ v = "override"

/-- Modelled from the spec: the operations that touch `conflict_state`
(spec §3 `FileMetadataRecord`, §4.5 and §8 scenario 5): divergence
detection, the user's local-wins override, resolution by re-sync, and the
successful completion of the override upload ("after which the record
returns to `None` following success", §4.5).  The engine code performing
them is not in the snapshot. -/
inductive ConflictOp where
  | detectDivergence
  | forceOverride
  | resolveBySync
  | overrideUploadSucceeded
deriving DecidableEq, Repr

/-- Modelled from the spec: applying one operation to a `conflict_state`
value.  `some s'` is a performed transition; `none` means the operation
does not fire in that state (the state is left untouched — in particular
nothing silently resets a `Pending` state). -/
def applyConflictOp (s : Option String) (op : ConflictOp) : Option (Option String) :=
  match op with
  | .detectDivergence => if s = none then some (some "pending") else none
  | .forceOverride => if s = some "pending" then some (some "override") else none
  | .resolveBySync => if s = some "pending" then some none else none
  | .overrideUploadSucceeded => if s = some "override" then some none else none

/-- Run a sequence of conflict operations from a starting value; an
operation that does not fire leaves the value unchanged. -/
def runConflictOps (s : Option String) (ops : List ConflictOp) : Option String :=
  ops.foldl (fun st op => (applyConflictOp st op).getD st) s

theorem applyConflictOp_valid (s : Option String) (op : ConflictOp)
    (hv : isValidConflictState s = true) :
    isValidConflictState ((applyConflictOp s op).getD s) = true := by
  cases op <;> rw [applyConflictOp] <;> split_ifs <;> simp_all [isValidConflictState]

theorem runConflictOps_valid (ops : List ConflictOp) (s : Option String)
    (hv : isValidConflictState s = true) :
    isValidConflictState (runConflictOps s ops) = true := by
  induction ops generalizing s with
  | nil => exact hv
  | cons op rest ih => exact ih _ (applyConflictOp_valid s op hv)

/-- C2 counterexample: completing the override upload performs the
transition Override→None mandated by spec §4.5 ("the record returns to
`None` following success") and §8 scenario 5 — a transition that is none
of the three the claim lists, so the claimed three-transition-only
property is false. -/
theorem conflict_state_three_transitions_counterexample :
    applyConflictOp (some "override") .overrideUploadSucceeded = some none
    ∧ ¬ (((some "override" : Option String) = none
            ∧ (none : Option String) = some "pending")
        ∨ ((some "override" : Option String) = some "pending"
            ∧ (none : Option String) = some "override")
        ∨ ((some "override" : Option String) = some "pending"
            ∧ (none : Option String) = none)) :=
  ⟨rfl, by decide⟩

/-- C2 (amended): starting from no conflict, `conflict_state` always stays
inside {null, "pending", "override"}, and every transition any operation
performs is one of None→Pending (divergence detected), Pending→Override
(user forces local-wins), Pending→None (resolved by re-sync), or
Override→None (the override upload completed successfully); in particular
no operation moves a Pending state anywhere but Override or None. -/
theorem conflict_state_spec_amended :
    (∀ ops : List ConflictOp, isValidConflictState (runConflictOps none ops) = true)
    ∧ (∀ (s : Option String) (op : ConflictOp) (s' : Option String),
        applyConflictOp s op = some s' →
          (s = none ∧ s' = some "pending")
          ∨ (s = some "pending" ∧ s' = some "override")
          ∨ (s = some "pending" ∧ s' = none)
          ∨ (s = some "override" ∧ s' = none)) := by
  refine ⟨fun ops => runConflictOps_valid ops none rfl, fun s op s' h => ?_⟩
  cases op with
  | detectDivergence =>
    rw [applyConflictOp] at h
    split_ifs at h with hs
    exact Or.inl ⟨hs, (Option.some.inj h).symm⟩
  | forceOverride =>
    rw [applyConflictOp] at h
    split_ifs at h with hs
    exact Or.inr (Or.inl ⟨hs, (Option.some.inj h).symm⟩)
  | resolveBySync =>
    rw [applyConflictOp] at h
    split_ifs at h with hs
    exact Or.inr (Or.inr (Or.inl ⟨hs, (Option.some.inj h).symm⟩))
  | overrideUploadSucceeded =>
    rw [applyConflictOp] at h
    split_ifs at h with hs
    exact Or.inr (Or.inr (Or.inr ⟨hs, (Option.some.inj h).symm⟩))

/-- Witness for the amended C2 at a concrete transition: detecting
divergence on a conflict-free record performs exactly the None→Pending
transition. -/
theorem conflict_state_spec_amended_witness :
    ((none : Option String) = none ∧ (some "pending" : Option String) = some "pending")
    ∨ ((none : Option String) = some "pending"
        ∧ (some "pending" : Option String) = some "override")
    ∨ ((none : Option String) = some "pending" ∧ (some "pending" : Option String) = none)
    ∨ ((none : Option String) = some "override" ∧ (some "pending" : Option String) = none) :=
  conflict_state_spec_amended.2 none .detectDivergence (some "pending") rfl

end Conflict

namespace SessionStore

open Schema

/-- The transfer session store: the current clock and the rows of
`upload_sessions`. -/
structure Store where
  now : Int
  table : List UploadSessionRow

/-- A session is live when it is not yet past its expiry ("treated as
abandoned and eligible for recreation once past `expires_at`", spec §3). -/
def liveAt (now : Int) (s : UploadSessionRow) : Prop :=
  now ≤ s.expires_at

instance (now : Int) (s : UploadSessionRow) : Decidable (liveAt now s) :=
  Int.decLe now s.expires_at

/-- Modelled from the spec: the operations the engine performs on the
session store (spec §3 `UploadSession` and §4.4); the Rust executor code is
not in the snapshot.  A session is created only when a transfer begins
chunking and no live session exists for the same `(drive_id, local_path)`
(a session past `expires_at` may be superseded); progress updates append an
acknowledged chunk to an existing row; a row is deleted on completion or
cancellation; and the clock only moves forward. -/
inductive Step : Store → Store → Prop where
  | tick (st : Store) (d : Int) (hd : 0 ≤ d) :
      Step st ⟨st.now + d, st.table⟩
  | create (st : Store) (row : UploadSessionRow)
      (hfresh : ∀ s ∈ st.table,
        s.drive_id = row.drive_id → s.local_path = row.local_path →
          s.expires_at < st.now) :
      Step st ⟨st.now, row :: st.table⟩
  | updateProgress (st : Store) (sid : String) (entry : ChunkProgressEntry) (t : Int) :
      Step st ⟨st.now, st.table.map (fun s =>
        if s.id = sid then
          { s with chunk_progress := s.chunk_progress ++ [entry], updated_at := t }
        else s)⟩
  | delete (st : Store) (sid : String) :
      Step st ⟨st.now, st.table.filter (fun s => s.id ≠ sid)⟩

/-- Modelled from the spec: the states the session store can reach from an
empty table. -/
inductive Reachable : Store → Prop where
  | init (t₀ : Int) : Reachable ⟨t₀, []⟩
  | step {a b : Store} : Reachable a → Step a b → Reachable b

/-- The claimed invariant: no two rows of the store share a
`(drive_id, local_path)` key while both are live. -/
def AtMostOneLive (st : Store) : Prop :=
  st.table.Pairwise (fun a b =>
    a.drive_id = b.drive_id → a.local_path = b.local_path →
      ¬ (liveAt st.now a ∧ liveAt st.now b))

theorem atMostOneLive_step {a b : Store} (hab : Step a b) (ha : AtMostOneLive a) :
    AtMostOneLive b := by
  cases hab with
  | tick d hd =>
    refine ha.imp fun {r₁ r₂} h hd' hl hlive => ?_
    exact h hd' hl ⟨le_trans (le_add_of_nonneg_right hd) hlive.1,
      le_trans (le_add_of_nonneg_right hd) hlive.2⟩
  | create row hfresh =>
    refine List.Pairwise.cons (fun s hs hd' hl hlive => ?_) ha
    exact absurd hlive.2 (not_le.mpr (hfresh s hs hd'.symm hl.symm))
  | updateProgress sid entry t =>
    rw [AtMostOneLive, List.pairwise_map]
    refine ha.imp fun {r₁ r₂} h => ?_
    have p₁ : ∀ s : UploadSessionRow,
        ((if s.id = sid then
            { s with chunk_progress := s.chunk_progress ++ [entry], updated_at := t }
          else s) : UploadSessionRow).drive_id = s.drive_id := by
      intro s
      split <;> rfl
    have p₂ : ∀ s : UploadSessionRow,
        ((if s.id = sid then
            { s with chunk_progress := s.chunk_progress ++ [entry], updated_at := t }
          else s) : UploadSessionRow).local_path = s.local_path := by
      intro s
      split <;> rfl
    have p₃ : ∀ s : UploadSessionRow,
        ((if s.id = sid then
            { s with chunk_progress := s.chunk_progress ++ [entry], updated_at := t }
          else s) : UploadSessionRow).expires_at = s.expires_at := by
      intro s
      split <;> rfl
    intro hd' hl hlive
    rw [p₁ r₁, p₁ r₂] at hd'
    rw [p₂ r₁, p₂ r₂] at hl
    obtain ⟨hl₁, hl₂⟩ := hlive
    rw [liveAt, p₃ r₁] at hl₁
    rw [liveAt, p₃ r₂] at hl₂
    exact h hd' hl ⟨hl₁, hl₂⟩
  | delete sid =>
    exact ha.sublist (List.filter_sublist _)

/-- C1: every reachable state of the transfer session store contains at
most one live upload session per `(drive_id, local_path)`: no two distinct
rows share both keys while both are unexpired. -/
theorem session_store_at_most_one_live (st : Store) (h : Reachable st) :
    AtMostOneLive st := by
  induction h with
  | init t₀ => exact List.Pairwise.nil
  | step _ hs ih => exact atMostOneLive_step hs ih

/-- A concrete session row used by the C1 witness. -/
def demoSession : UploadSessionRow :=
  ⟨"s1", "t1", "drive-1", "/tmp/a.txt", "cloudreve://a.txt", 1024, 256, "local",
    "cred", [⟨0, 256, "etag0"⟩], none, 100, 0, 0⟩

/-- Witness for C1: the state reached by creating one session in an empty
store satisfies the invariant. -/
theorem session_store_at_most_one_live_witness :
    AtMostOneLive ⟨(0 : Int), [demoSession]⟩ :=
  session_store_at_most_one_live ⟨0, [demoSession]⟩
    (Reachable.step (Reachable.init 0)
      (Step.create ⟨0, []⟩ demoSession (by intro s hs; cases hs)))

end SessionStore

namespace DriveRegistry

/-- Modelled from the spec: the drive status values (spec §3 `DriveConfig`,
matching the strings the settings UI renders in `DrivesSection.tsx`). -/
inductive DriveStatus where
  | active
  | eventPushLost
  | credentialExpired
deriving DecidableEq, Repr

/-- Modelled from the spec: `DriveConfig` (spec §3; field names following
the GUI's `DriveInfoResponse` in `DrivesSection.tsx`).  The owning Rust
crate is not in the snapshot. -/
structure DriveConfig where
  id : String
  name : String
  instance_url : String
  sync_path : String
  remote_path : String
  sync_direction : DrivesSection.SyncDirection
  enabled : Bool
  status : DriveStatus
  credential : String
deriving DecidableEq, Repr

/-- Modelled from the spec: the registry failure conditions of spec §4.1
(`AlreadyExists` for a duplicate `add`, `NotFound` for an unknown
`update`/`remove` id). -/
inductive RegistryError where
  | alreadyExists
  | notFound
deriving DecidableEq, Repr

/-- The event variants of `EventBroadcaster` (`ARCHITECTURE.md`,
`events/mod.rs` listing); the `f32` progress and JSON payload are carried
as strings, which the claims never inspect. -/
inductive Event where
  | driveAdded (drive_id name : String)
  | driveRemoved (drive_id : String)
  | driveUpdated (drive_id : String)
  | syncStarted (drive_id : String)
  | syncCompleted (drive_id : String) (files_synced : Nat)
  | syncProgress (drive_id progress current_file : String)
  | syncError (drive_id error : String)
  | fileUploaded (drive_id file_path : String)
  | fileDownloaded (drive_id file_path : String)
  | connectionStatusChanged (connected : Bool)
  | custom (event_name payload : String)
deriving DecidableEq, Repr

/-- The registry's two copies of the config set: the in-memory state behind
the RwLock and the contents of the durable store (`drives.json`). -/
structure RegistryState where
  drives : List DriveConfig
  durable : List DriveConfig
deriving DecidableEq, Repr

/-- The outcome of one registry mutation: its result, the state after it
returns, and the events it emitted. -/
structure MutationResult where
  result : Except RegistryError Unit
  state : RegistryState
  events : List Event
deriving Repr

/-- Modelled from the spec: `add_drive` (spec §4.1 and `ARCHITECTURE.md`
"Adding a Drive": update in-memory state, persist the full set, emit
`DriveAdded`, then return; a duplicate id fails with `AlreadyExists` and
changes nothing). -/
def add_drive (st : RegistryState) (c : DriveConfig) : MutationResult :=
  if st.drives.any (fun d => d.id = c.id) then
    ⟨.error .alreadyExists, st, []⟩
  else
    let drives := st.drives ++ [c]
    ⟨.ok (), ⟨drives, drives⟩, [.driveAdded c.id c.name]⟩

/-- Modelled from the spec: `update_drive` (spec §4.1: persist the full set
and emit `DriveUpdated` before returning success; an unknown id fails with
`NotFound` and changes nothing). -/
def update_drive (st : RegistryState) (id : String) (c : DriveConfig) : MutationResult :=
  if st.drives.any (fun d => d.id = id) then
    let drives := st.drives.map (fun d => if d.id = id then c else d)
    ⟨.ok (), ⟨drives, drives⟩, [.driveUpdated id]⟩
  else ⟨.error .notFound, st, []⟩

/-- Modelled from the spec: `remove_drive` (spec §4.1: persist the full set
and emit `DriveRemoved` before returning success; an unknown id fails with
`NotFound` and changes nothing). -/
def remove_drive (st : RegistryState) (id : String) : MutationResult :=
  if st.drives.any (fun d => d.id = id) then
    let drives := st.drives.filter (fun d => d.id ≠ id)
    ⟨.ok (), ⟨drives, drives⟩, [.driveRemoved id]⟩
  else ⟨.error .notFound, st, []⟩

/-- C3: `add` with an id already configured fails with `AlreadyExists` and
leaves the state (both the in-memory and the durable config set) unchanged
with no event; `update` and `remove` with an unknown id fail with
`NotFound`, equally changing nothing. -/
theorem registry_errors_spec :
    (∀ st c, (∃ d ∈ st.drives, d.id = c.id) →
        add_drive st c = ⟨.error .alreadyExists, st, []⟩)
    ∧ (∀ st id c, (∀ d ∈ st.drives, d.id ≠ id) →
        update_drive st id c = ⟨.error .notFound, st, []⟩)
    ∧ (∀ st id, (∀ d ∈ st.drives, d.id ≠ id) →
        remove_drive st id = ⟨.error .notFound, st, []⟩) := by
  refine ⟨fun st c ⟨d, hd, hid⟩ => ?_, fun st id c hno => ?_, fun st id hno => ?_⟩
  · rw [add_drive, if_pos (List.any_eq_true.mpr ⟨d, hd, by simp [hid]⟩)]
  · rw [update_drive, if_neg ?_]
    simp only [List.any_eq_true, not_exists, not_and]
    intro d hd
    simp [hno d hd]
  · rw [remove_drive, if_neg ?_]
    simp only [List.any_eq_true, not_exists, not_and]
    intro d hd
    simp [hno d hd]

/-- A concrete drive configuration used by the registry witnesses. -/
def demoDrive : DriveConfig :=
  ⟨"drive-1", "Work", "https://cloud.example", "/home/u/sync", "/", .twoWay, true,
    .active, "cred-1"⟩

/-- Witness for C3 at a concrete registry: adding `demoDrive` to a registry
already holding it fails with `AlreadyExists` and returns the state
untouched. -/
theorem registry_errors_spec_witness :
    add_drive ⟨[demoDrive], [demoDrive]⟩ demoDrive =
      ⟨.error .alreadyExists, ⟨[demoDrive], [demoDrive]⟩, []⟩ :=
  registry_errors_spec.1 ⟨[demoDrive], [demoDrive]⟩ demoDrive
    ⟨demoDrive, List.mem_singleton.mpr rfl, rfl⟩

/-- C5: every mutation that returns success has the durable store holding
exactly the post-mutation config set and has emitted the corresponding
event; for `add` and `remove` the persisted set moreover differs from the
pre-mutation set, so success is never returned with the old set still on
disk. -/
theorem registry_persistence_spec :
    (∀ st c, (add_drive st c).result = .ok () →
        (add_drive st c).state.durable = (add_drive st c).state.drives
        ∧ (add_drive st c).events = [.driveAdded c.id c.name]
        ∧ (add_drive st c).state.drives ≠ st.drives)
    ∧ (∀ st id c, (update_drive st id c).result = .ok () →
        (update_drive st id c).state.durable = (update_drive st id c).state.drives
        ∧ (update_drive st id c).events = [.driveUpdated id])
    ∧ (∀ st id, (remove_drive st id).result = .ok () →
        (remove_drive st id).state.durable = (remove_drive st id).state.drives
        ∧ (remove_drive st id).events = [.driveRemoved id]
        ∧ (remove_drive st id).state.drives ≠ st.drives) := by
  refine ⟨fun st c hok => ?_, fun st id c hok => ?_, fun st id hok => ?_⟩
  · rw [add_drive] at hok ⊢
    by_cases hdup : st.drives.any (fun d => d.id = c.id) = true
    · rw [if_pos hdup] at hok
      exact absurd hok (by simp)
    · rw [if_neg hdup] at hok ⊢
      refine ⟨rfl, rfl, fun heq => ?_⟩
      have heq' : st.drives ++ [c] = st.drives := heq
      have := congrArg List.length heq'
      simp at this
  · rw [update_drive] at hok ⊢
    by_cases hmem : st.drives.any (fun d => d.id = id) = true
    · rw [if_pos hmem] at hok ⊢
      exact ⟨rfl, rfl⟩
    · rw [if_neg hmem] at hok
      exact absurd hok (by simp)
  · rw [remove_drive] at hok ⊢
    by_cases hmem : st.drives.any (fun d => d.id = id) = true
    · rw [if_pos hmem] at hok ⊢
      refine ⟨rfl, rfl, fun heq => ?_⟩
      have heq' : st.drives.filter (fun d => d.id ≠ id) = st.drives := heq
      obtain ⟨d, hd, hid⟩ := List.any_eq_true.mp hmem
      have hd' : d ∈ st.drives.filter (fun d => d.id ≠ id) := by
        rw [heq']
        exact hd
      have := (List.mem_filter.mp hd').2
      simp only [decide_eq_true_eq] at hid
      simp [hid] at this
    · rw [if_neg hmem] at hok
      exact absurd hok (by simp)

/-- Witness for C5 at a concrete mutation: adding `demoDrive` to the empty
registry persists the new one-drive set and emits `DriveAdded`. -/
theorem registry_persistence_spec_witness :
    (add_drive ⟨[], []⟩ demoDrive).state.durable = (add_drive ⟨[], []⟩ demoDrive).state.drives
    ∧ (add_drive ⟨[], []⟩ demoDrive).events = [.driveAdded demoDrive.id demoDrive.name]
    ∧ (add_drive ⟨[], []⟩ demoDrive).state.drives ≠ ([] : List DriveConfig) :=
  registry_persistence_spec.1 ⟨[], []⟩ demoDrive rfl

end DriveRegistry
